import Mathlib

/-!
Verification of the suggestion-matching, dismissal and rate-limiting core of
the `wordwise_v02` writing-assistant backend.

Python strings are embedded as `List Char`, `datetime` values as microsecond
timestamps (`Nat`), and the relational rows the core mutates as explicit
record values threaded through the functions.  Each definition mirrors one
function of `backend/app/routers/suggestions.py` or `backend/app/auth.py`.
-/

namespace WordWise

/-- Python strings, embedded as lists of characters. -/
abbrev Str := List Char

/-! ## TextSpanLocator (`find_text_positions`, `select_best_position`) -/

/-- Occurrence test: `matchesAt h n i` holds when the needle `n` occurs in the haystack `h`
starting at index `i` (with the whole needle inside the haystack). -/
def matchesAt (h n : Str) (i : Nat) : Bool :=
  decide (i + n.length ≤ h.length) && ((h.drop i).take n.length == n)

/-- Python `h.find(n, start)`: the least index `i ≥ start` at which `n`
occurs in `h` (indices up to and including `h.length`, so an empty needle is
found at every offset `start ≤ h.length`); `none` models Python's `-1`. -/
def strFind (h n : Str) (start : Nat) : Option Nat :=
  ((List.range (h.length + 1)).filter
    (fun i => decide (start ≤ i) && matchesAt h n i)).head?

/-- The loop of `find_text_positions`: repeatedly call `str.find` and resume
one character after each hit (`start = pos + 1`), collecting
`(pos, pos + len(needle))` spans.  The fuel argument only bounds the number
of loop iterations (each iteration strictly increases `start`, which never
exceeds `h.length + 1`, so `h.length + 2` units are always enough). -/
def findPosAux (h n : Str) : Nat → Nat → List (Nat × Nat)
  | 0, _ => []
  | fuel + 1, start =>
    match strFind h n start with
    | none => []
    | some pos => (pos, pos + n.length) :: findPosAux h n fuel (pos + 1)

/-- Function `find_text_positions` from `routers/suggestions.py`: all occurrences of
`original_text` in `paragraph_text` as `(start, end)` pairs, overlapping
occurrences included. -/
def find_text_positions (paragraph_text original_text : Str) : List (Nat × Nat) :=
  findPosAux paragraph_text original_text (paragraph_text.length + 2) 0

/-- Function `select_best_position` from `routers/suggestions.py`: first candidate
position that does not overlap any already-used span. -/
def select_best_position (positions : List (Nat × Nat))
    (used_positions : List (Nat × Nat)) : Option (Nat × Nat) :=
  match positions with
  | [] => none
  | (s, e) :: rest =>
    if used_positions.any
        (fun u => !(decide (e ≤ u.1) || decide (s ≥ u.2))) then
      select_best_position rest used_positions
    else
      some (s, e)

/-- A span conflicts with a collection of used spans when it overlaps one of
them; two intervals overlap unless one entirely precedes the other. -/
def Conflicts (p : Nat × Nat) (used : List (Nat × Nat)) : Prop :=
  ∃ q ∈ used, ¬(p.2 ≤ q.1 ∨ q.2 ≤ p.1)

/-! ## DismissalRegistry (`create_dismissal_identifier`, `dismiss_suggestion`) -/

/-- Function `create_dismissal_identifier` from `routers/suggestions.py`:
`f"{original_text}|{rule_id}"`. -/
def create_dismissal_identifier (original_text rule_id : Str) : Str :=
  original_text ++ ['|'] ++ rule_id

/-! ## SuggestionPipeline data model -/

/-- One item of `ParagraphAnalysisRequest.paragraphs` (`schemas.py`). -/
structure Paragraph where
  paragraph_id : Str
  text_content : Str
  base_offset : Nat
deriving DecidableEq, Repr

/-- A candidate edit as decoded from the provider's JSON: a dict whose five
expected keys may each be present or absent. -/
structure RawSuggestion where
  rule_id : Option Str
  category : Option Str
  original_text : Option Str
  suggestion_text : Option Str
  message : Option Str
deriving DecidableEq, Repr

/-- The `Suggestion` response schema (`schemas.py`), minus the freshly
generated random `suggestion_id`. -/
structure Suggestion where
  rule_id : Str
  category : Str
  original_text : Str
  suggestion_text : Str
  message : Str
  global_start : Nat
  global_end : Nat
  dismissal_identifier : Str
deriving DecidableEq, Repr

/-- The strings appended to the handler's `errors` list, by shape. -/
inductive AnalysisError where
  | failedParagraph (paragraph_id : Str) (msg : Str)
  | missingFields (fields : List Str) (paragraph_id : Str)
  | invalidFormat (paragraph_id : Str) (msg : Str)
deriving DecidableEq, Repr

/-- The `missing_fields` computation of the handler: the required field
names, in order, whose key is absent from the candidate dict. -/
def missingFields (raw : RawSuggestion) : List Str :=
  (if raw.rule_id.isNone then ["rule_id".data] else [])
    ++ (if raw.category.isNone then ["category".data] else [])
    ++ (if raw.original_text.isNone then ["original_text".data] else [])
    ++ (if raw.suggestion_text.isNone then ["suggestion_text".data] else [])
    ++ (if raw.message.isNone then ["message".data] else [])

/-- What the outcome of one provider call can be: the request raises (an
`Exception`, e.g. a timeout), returns content that fails JSON parsing, or
returns a decoded list of candidate dicts. -/
inductive CallOutcome where
  | raises (msg : Str)
  | badJSON
  | ok (suggestions : List RawSuggestion)
deriving DecidableEq, Repr

/-- Function `analyze_paragraph_with_llm` from `routers/suggestions.py`, as a function
of what the provider call does: any raised `Exception` is captured and
yields `[]`, a `JSONDecodeError` yields `[]`, otherwise the decoded list is
returned. -/
def analyze_paragraph_with_llm : CallOutcome → List RawSuggestion
  | CallOutcome.raises _ => []
  | CallOutcome.badJSON => []
  | CallOutcome.ok suggestions => suggestions

/-- One element of the `asyncio.gather(..., return_exceptions=True)` result:
either an exception object or the coroutine's return value. -/
inductive GatherItem where
  | exc (msg : Str)
  | result (raws : List RawSuggestion)
deriving DecidableEq, Repr

/-- The handler's mutable accumulators `all_suggestions` and `errors`. -/
structure AnalyzeState where
  all_suggestions : List Suggestion
  errors : List AnalysisError
deriving DecidableEq, Repr

/-- The body of the handler's inner `for suggestion_data in llm_result`
loop: validate fields, locate the text, pick a non-conflicting span, build
global offsets, skip dismissed candidates, emit the suggestion.  The span is
recorded in `used_positions` before the dismissal check, exactly as in the
source. -/
def processCandidate (dismissed : List Str) (par : Paragraph)
    (used : List (Nat × Nat)) (st : AnalyzeState) (raw : RawSuggestion) :
    List (Nat × Nat) × AnalyzeState :=
  if missingFields raw ≠ [] then
    (used, { st with errors := st.errors
      ++ [AnalysisError.missingFields (missingFields raw) par.paragraph_id] })
  else
    match raw.rule_id, raw.category, raw.original_text,
        raw.suggestion_text, raw.message with
    | some rule, some cat, some orig, some sugg, some msg =>
      let positions := find_text_positions par.text_content orig
      if positions = [] then
        (used, st)
      else
        match select_best_position positions used with
        | none => (used, st)
        | some (relative_start, relative_end) =>
          let used' := (relative_start, relative_end) :: used
          let global_start := par.base_offset + relative_start
          let global_end := par.base_offset + relative_end
          let dismissal_id := create_dismissal_identifier orig rule
          if dismissal_id ∈ dismissed then
            (used', st)
          else
            (used', { st with all_suggestions := st.all_suggestions
              ++ [{ rule_id := rule, category := cat, original_text := orig,
                    suggestion_text := sugg, message := msg,
                    global_start := global_start, global_end := global_end,
                    dismissal_identifier := dismissal_id }] })
    | _, _, _, _, _ => (used, st)

/-- The inner loop over one paragraph's candidate list, with a fresh
(per-paragraph) `used_positions` set. -/
def processParagraphSuggestions (dismissed : List Str) (par : Paragraph)
    (raws : List RawSuggestion) (st : AnalyzeState) : AnalyzeState :=
  (raws.foldl
    (fun acc raw => processCandidate dismissed par acc.1 acc.2 raw)
    (([] : List (Nat × Nat)), st)).2

/-- The response schema `SuggestionAnalysisResponse`. -/
structure AnalyzeResponse where
  suggestions : List Suggestion
  total_paragraphs_processed : Nat
  errors : List AnalysisError
deriving DecidableEq, Repr

/-- The step of the handler's outer `for (paragraph, llm_result) in
zip(non_empty_paragraphs, llm_results)` loop: bump `processed_count`, turn a
gathered exception into one error entry, otherwise run the inner loop. -/
def processPair (dismissed : List Str) (acc : AnalyzeState × Nat)
    (pg : Paragraph × GatherItem) : AnalyzeState × Nat :=
  match pg.2 with
  | GatherItem.exc msg =>
    ({ acc.1 with errors := acc.1.errors
        ++ [AnalysisError.failedParagraph pg.1.paragraph_id msg] },
     acc.2 + 1)
  | GatherItem.result raws =>
    (processParagraphSuggestions dismissed pg.1 raws acc.1, acc.2 + 1)

/-- Truthiness of `paragraph.text_content.strip()`: the text has some
non-whitespace character. -/
def strippedNonEmpty (t : Str) : Bool :=
  t.any (fun c => !c.isWhitespace)

/-- The post-validation body of the `/suggestions/analyze` handler: filter
out blank paragraphs, run one provider call per remaining paragraph
(`oracle` lists what each call does), and fold the zipped results into the
response.  Because `analyze_paragraph_with_llm` catches every `Exception`
itself, each gathered item is a `result`, never an `exc`. -/
def analyze_paragraphs_core (dismissed : List Str)
    (paragraphs : List Paragraph) (oracle : List CallOutcome) :
    AnalyzeResponse :=
  let non_empty_paragraphs :=
    paragraphs.filter (fun p => strippedNonEmpty p.text_content)
  let llm_results :=
    oracle.map (fun o => GatherItem.result (analyze_paragraph_with_llm o))
  let final := (non_empty_paragraphs.zip llm_results).foldl
    (processPair dismissed) (⟨[], []⟩, 0)
  { suggestions := final.1.all_suggestions,
    total_paragraphs_processed := final.2,
    errors := final.1.errors }

/-! ## RateLimitGate (`check_rate_limit` in `auth.py`)

Timestamps are microseconds (the resolution of Python `datetime`), so one
hour is `3600000000` and `timedelta.total_seconds()` truncated by `int(...)`
is division by `1000000` on a positive difference. -/
def usPerSecond : Nat := 1000000

def usPerHour : Nat := 3600000000

/-- The rate-limit columns of the `profiles` row. -/
structure Profile where
  api_call_count : Nat
  rate_limit_reset_at : Option Nat
deriving DecidableEq, Repr

/-- What `check_rate_limit` does: returns the (updated) profile, or raises
HTTP 429 with the `detail` payload `{current_usage, limit,
reset_in_seconds}`. -/
inductive RateLimitOutcome where
  | allowed (profile : Profile)
  | rejected (current_usage : Nat) (limit : Nat) (reset_in_seconds : Nat)
deriving DecidableEq, Repr

/-- The window test of `check_rate_limit`:
`rate_limit_reset_at is None or current_time >= rate_limit_reset_at`. -/
def windowExpired (p : Profile) (now : Nat) : Bool :=
  match p.rate_limit_reset_at with
  | none => true
  | some r => decide (now ≥ r)

/-- Function `check_rate_limit` from `auth.py`.  The second component is the profile
row as persisted after the call (unchanged when the request is rejected,
since the 429 path performs no update). -/
def check_rate_limit (requests_per_hour : Nat) (p : Profile) (now : Nat) :
    RateLimitOutcome × Profile :=
  match p.rate_limit_reset_at with
  | none =>
    let p' : Profile := ⟨1, some (now + usPerHour)⟩
    (RateLimitOutcome.allowed p', p')
  | some r =>
    if now ≥ r then
      let p' : Profile := ⟨1, some (now + usPerHour)⟩
      (RateLimitOutcome.allowed p', p')
    else if p.api_call_count ≥ requests_per_hour then
      let seconds_until_reset := (r - now) / usPerSecond
      (RateLimitOutcome.rejected p.api_call_count requests_per_hour
        seconds_until_reset, p)
    else
      let p' : Profile := { p with api_call_count := p.api_call_count + 1 }
      (RateLimitOutcome.allowed p', p')

/-! ## The `/suggestions/analyze` endpoint with its request-level checks -/
def MAX_PARAGRAPHS_PER_REQUEST : Nat := 10

def MAX_PARAGRAPH_LENGTH : Nat := 2000

/-- The hard failures the endpoint can raise. -/
inductive HTTPError where
  | badRequest (detail : Str)
  | notFound (detail : Str)
  | tooManyRequests (current_usage : Nat) (limit : Nat)
      (reset_in_seconds : Nat)
deriving DecidableEq, Repr

/-- The `/suggestions/analyze` endpoint: FastAPI resolves the
`suggestions_rate_limit` dependency (i.e. runs `check_rate_limit`) before
the handler body, so the paragraph-count, paragraph-length and
document-ownership checks all happen after the counter has been consumed.
The second component is the persisted profile row after the request. -/
def analyze_endpoint (requests_per_hour : Nat) (profile : Profile)
    (now : Nat) (paragraphs : List Paragraph) (docOwned : Bool)
    (dismissed : List Str) (oracle : List CallOutcome) :
    Except HTTPError AnalyzeResponse × Profile :=
  match check_rate_limit requests_per_hour profile now with
  | (RateLimitOutcome.rejected u l s, stored) =>
    (Except.error (HTTPError.tooManyRequests u l s), stored)
  | (RateLimitOutcome.allowed _, stored) =>
    if paragraphs.length > MAX_PARAGRAPHS_PER_REQUEST then
      (Except.error (HTTPError.badRequest "Too many paragraphs.".data),
       stored)
    else if paragraphs.any
        (fun par => decide (par.text_content.length > MAX_PARAGRAPH_LENGTH))
        then
      (Except.error (HTTPError.badRequest "Paragraph too long.".data),
       stored)
    else if !docOwned then
      (Except.error
        (HTTPError.notFound "Document not found or access denied".data),
       stored)
    else
      (Except.ok (analyze_paragraphs_core dismissed paragraphs oracle),
       stored)

/-! ## Dismissal persistence (`dismiss_suggestion`)

Modelled from the spec: the `DismissedSuggestion` table of `models.py` is
not among the sources; per the spec's data model, a dismissal record is
`{profile_id, document_id, dismissal_identifier}` with a uniqueness
constraint on that triple, and an insert that violates it raises the
persistence layer's uniqueness-conflict signal instead of storing a
duplicate row. -/
structure DismissalRecord where
  profile_id : Str
  document_id : Str
  dismissal_identifier : Str
deriving DecidableEq, Repr

abbrev DismissalDB := List DismissalRecord

inductive InsertResult where
  | ok (db : DismissalDB)
  | uniqueViolation
deriving DecidableEq, Repr

/-- Modelled from the spec: inserting a row that equals an existing one on
the unique triple raises the uniqueness-conflict signal; otherwise the row
is appended and committed. -/
def insertDismissal (db : DismissalDB) (record : DismissalRecord) :
    InsertResult :=
  if record ∈ db then InsertResult.uniqueViolation
  else InsertResult.ok (db ++ [record])

/-- The `DismissSuggestionResponse` schema. -/
structure DismissResponse where
  success : Bool
  dismissal_identifier : Str
deriving DecidableEq, Repr

/-- The `/suggestions/dismiss` handler: verify ownership, compute the
identifier, insert; a uniqueness-conflict on the insert is rolled back and
treated as success with the same identifier. -/
def dismiss_suggestion (db : DismissalDB)
    (profile_id document_id original_text rule_id : Str)
    (docOwned : Bool) :
    Except HTTPError (DismissResponse × DismissalDB) :=
  if !docOwned then
    Except.error
      (HTTPError.notFound "Document not found or access denied".data)
  else
    let dismissal_identifier :=
      create_dismissal_identifier original_text rule_id
    match insertDismissal db
        ⟨profile_id, document_id, dismissal_identifier⟩ with
    | InsertResult.ok db' =>
      Except.ok (⟨true, dismissal_identifier⟩, db')
    | InsertResult.uniqueViolation =>
      Except.ok (⟨true, dismissal_identifier⟩, db)

/-! ## Pipeline decomposition lemmas

The handler mutates the shared accumulators `all_suggestions`/`errors` only
by appending, so the response decomposes into per-paragraph contributions
computed from an empty state. -/

/-- What one zipped `(paragraph, llm_result)` pair adds to the suggestion
and error lists. -/
def pairContribution (dismissed : List Str) (pg : Paragraph × GatherItem) :
    List Suggestion × List AnalysisError :=
  ((processPair dismissed (⟨[], []⟩, 0) pg).1.all_suggestions,
   (processPair dismissed (⟨[], []⟩, 0) pg).1.errors)

/-! ## Span-invariant lemmas -/

/-- The span invariant on an emitted suggestion: the global span has the
length of `original_text` (and is non-degenerate when that text is
non-empty). -/
def SpanInv (s : Suggestion) : Prop :=
  s.global_end - s.global_start = s.original_text.length
  ∧ s.global_start ≤ s.global_end
  ∧ (s.original_text ≠ [] → s.global_start < s.global_end)

theorem head?_eq_some_cons {α : Type} {l : List α} {a : α}
    (h : l.head? = some a) : ∃ t, l = a :: t := by
  cases l with
  | nil => simp at h
  | cons b t => simp at h; exact ⟨t, by rw [h]⟩

theorem strFind_bounds {h n : Str} {start pos : Nat}
    (hf : strFind h n start = some pos) :
    start ≤ pos ∧ pos ≤ h.length ∧ matchesAt h n pos = true := by
  obtain ⟨t, ht⟩ := head?_eq_some_cons hf
  have hmem : pos ∈ (List.range (h.length + 1)).filter
      (fun i => decide (start ≤ i) && matchesAt h n i) := by
    rw [ht]; exact List.mem_cons_self _ _
  rw [List.mem_filter, List.mem_range] at hmem
  obtain ⟨hlt, hcond⟩ := hmem
  rw [Bool.and_eq_true, decide_eq_true_eq] at hcond
  exact ⟨hcond.1, by omega, hcond.2⟩

theorem filter_ge_head (P : Nat → Bool) :
    ∀ (l : List Nat), l.Pairwise (· < ·) → ∀ (s pos : Nat),
      (l.filter (fun i => decide (s ≤ i) && P i)).head? = some pos →
      l.filter (fun i => decide (s ≤ i) && P i)
        = pos :: l.filter (fun i => decide (pos + 1 ≤ i) && P i) := by
  intro l
  induction l with
  | nil => intro _ s pos hhd; simp at hhd
  | cons a t ih =>
    intro hpw s pos hhd
    have hpw' := List.pairwise_cons.mp hpw
    by_cases ha : (decide (s ≤ a) && P a) = true
    · rw [List.filter_cons, if_pos ha] at hhd ⊢
      have hap : pos = a := by simpa using hhd.symm
      subst hap
      have hnotr : ¬ ((decide (pos + 1 ≤ pos) && P pos) = true) := by
        simp
      rw [List.filter_cons, if_neg hnotr]
      have hcong : t.filter (fun i => decide (s ≤ i) && P i)
          = t.filter (fun i => decide (pos + 1 ≤ i) && P i) := by
        apply List.filter_congr
        intro x hx
        have hlt : pos < x := hpw'.1 x hx
        have hs : s ≤ pos := by
          rw [Bool.and_eq_true, decide_eq_true_eq] at ha; exact ha.1
        have h1 : decide (s ≤ x) = true := by
          rw [decide_eq_true_eq]; omega
        have h2 : decide (pos + 1 ≤ x) = true := by
          rw [decide_eq_true_eq]; omega
        rw [h1, h2]
      rw [hcong]
    · rw [List.filter_cons, if_neg ha] at hhd ⊢
      have hpos_mem : pos ∈ t := by
        obtain ⟨t', ht'⟩ := head?_eq_some_cons hhd
        have : pos ∈ t.filter (fun i => decide (s ≤ i) && P i) := by
          rw [ht']; exact List.mem_cons_self _ _
        exact (List.mem_filter.mp this).1
      have halpos : a < pos := hpw'.1 pos hpos_mem
      have hnotr : ¬ ((decide (pos + 1 ≤ a) && P a) = true) := by
        rw [Bool.and_eq_true, decide_eq_true_eq]
        intro hc; omega
      rw [List.filter_cons, if_neg hnotr]
      exact ih hpw'.2 s pos hhd

theorem findPosAux_eq (h n : Str) :
    ∀ (k start : Nat), h.length + 1 - start < k →
      findPosAux h n k start
        = ((List.range (h.length + 1)).filter
            (fun i => decide (start ≤ i) && matchesAt h n i)).map
            (fun i => (i, i + n.length)) := by
  intro k
  induction k with
  | zero => intro start hk; omega
  | succ k ih =>
    intro start hk
    rw [findPosAux]
    split
    · rename_i hf
      have hfil : (List.range (h.length + 1)).filter
          (fun i => decide (start ≤ i) && matchesAt h n i) = [] :=
        List.head?_eq_none_iff.mp hf
      rw [hfil]; rfl
    · rename_i pos hf
      have hdec := filter_ge_head (matchesAt h n) (List.range (h.length + 1))
        (List.pairwise_lt_range _) start pos hf
      have hb := strFind_bounds hf
      rw [hdec, List.map_cons]
      have hrec := ih (pos + 1) (by omega)
      rw [hrec]

/-- Characterization: `find_text_positions` computes exactly the (sorted) list of all match
positions: the filter of all offsets of the haystack (inclusive) by
`matchesAt`, each paired with its end offset. -/
theorem find_text_positions_eq (h n : Str) :
    find_text_positions h n
      = ((List.range (h.length + 1)).filter (fun i => matchesAt h n i)).map
          (fun i => (i, i + n.length)) := by
  unfold find_text_positions
  rw [findPosAux_eq h n (h.length + 2) 0 (by omega)]
  congr 1
  apply List.filter_congr
  intro x _
  simp

theorem matchesAt_length_le {h n : Str} {i : Nat}
    (hm : matchesAt h n i = true) : i + n.length ≤ h.length := by
  rw [matchesAt, Bool.and_eq_true, decide_eq_true_eq] at hm
  exact hm.1

theorem mem_find_text_positions {h n : Str} {s e : Nat} :
    (s, e) ∈ find_text_positions h n
      ↔ matchesAt h n s = true ∧ e = s + n.length := by
  rw [find_text_positions_eq]
  constructor
  · intro hmem
    rw [List.mem_map] at hmem
    obtain ⟨i, hi, heq⟩ := hmem
    rw [List.mem_filter] at hi
    have h1 : i = s := congrArg Prod.fst heq
    have h2 : i + n.length = e := congrArg Prod.snd heq
    subst h1
    exact ⟨hi.2, h2.symm⟩
  · intro ⟨hm, he⟩
    rw [List.mem_map]
    refine ⟨s, ?_, by rw [he]⟩
    rw [List.mem_filter, List.mem_range]
    have := matchesAt_length_le hm
    exact ⟨by omega, hm⟩

theorem find_text_positions_sorted (h n : Str) :
    (find_text_positions h n).Pairwise (fun p q => p.1 < q.1) := by
  rw [find_text_positions_eq]
  exact List.Pairwise.map _ (fun a b hab => hab)
    (List.Pairwise.filter _ (List.pairwise_lt_range _))

theorem conflicts_iff_any (p : Nat × Nat) (used : List (Nat × Nat)) :
    (used.any (fun u => !(decide (p.2 ≤ u.1) || decide (p.1 ≥ u.2))) = true)
      ↔ Conflicts p used := by
  rw [List.any_eq_true]
  unfold Conflicts
  constructor
  · intro ⟨u, hu, hb⟩
    refine ⟨u, hu, ?_⟩
    simp only [Bool.not_eq_true', Bool.or_eq_false_iff, decide_eq_false_iff_not] at hb
    intro hc
    rcases hc with hc | hc
    · exact hb.1 hc
    · exact hb.2 hc
  · intro ⟨u, hu, hb⟩
    refine ⟨u, hu, ?_⟩
    simp only [Bool.not_eq_true', Bool.or_eq_false_iff, decide_eq_false_iff_not]
    exact ⟨fun hc => hb (Or.inl hc), fun hc => hb (Or.inr hc)⟩

theorem select_best_position_none {positions used : List (Nat × Nat)}
    (h : select_best_position positions used = none) :
    ∀ p ∈ positions, Conflicts p used := by
  induction positions with
  | nil => intro p hp; simp at hp
  | cons q rest ih =>
    intro p hp
    rw [select_best_position] at h
    obtain ⟨s, e⟩ := q
    split at h
    · rename_i hany
      rcases List.mem_cons.mp hp with hp | hp
      · subst hp; exact (conflicts_iff_any _ _).mp hany
      · exact ih h p hp
    · simp at h

theorem select_best_position_some {positions used : List (Nat × Nat)}
    {p : Nat × Nat} (h : select_best_position positions used = some p) :
    ∃ l r, positions = l ++ p :: r ∧ ¬ Conflicts p used
      ∧ ∀ q ∈ l, Conflicts q used := by
  induction positions with
  | nil => simp [select_best_position] at h
  | cons q rest ih =>
    rw [select_best_position] at h
    obtain ⟨s, e⟩ := q
    split at h
    · rename_i hany
      obtain ⟨l, r, hlr, hnc, hall⟩ := ih h
      refine ⟨(s, e) :: l, r, by rw [hlr, List.cons_append], hnc, ?_⟩
      intro q hq
      rcases List.mem_cons.mp hq with hq | hq
      · subst hq; exact (conflicts_iff_any _ _).mp hany
      · exact hall q hq
    · rename_i hany
      have hp : p = (s, e) := by simpa using h.symm
      subst hp
      refine ⟨[], rest, rfl, ?_, by intro q hq; simp at hq⟩
      intro hc
      exact hany ((conflicts_iff_any _ _).mpr hc)

theorem select_best_position_mem {positions used : List (Nat × Nat)}
    {p : Nat × Nat} (h : select_best_position positions used = some p) :
    p ∈ positions := by
  obtain ⟨l, r, hlr, _, _⟩ := select_best_position_some h
  rw [hlr]
  exact List.mem_append.mpr (Or.inr (List.mem_cons_self _ _))

theorem processCandidate_state (dismissed : List Str) (par : Paragraph)
    (used : List (Nat × Nat)) (st : AnalyzeState) (raw : RawSuggestion) :
    processCandidate dismissed par used st raw
      = ((processCandidate dismissed par used ⟨[], []⟩ raw).1,
         ⟨st.all_suggestions
            ++ (processCandidate dismissed par used ⟨[], []⟩ raw).2.all_suggestions,
          st.errors
            ++ (processCandidate dismissed par used ⟨[], []⟩ raw).2.errors⟩) := by
  unfold processCandidate
  dsimp only
  split
  · simp
  · split
    · split
      · simp
      · split
        · simp
        · split
          · simp
          · simp
    · simp

theorem processCandidate_fst (dismissed : List Str) (par : Paragraph)
    (used : List (Nat × Nat)) (st : AnalyzeState) (raw : RawSuggestion) :
    (processCandidate dismissed par used st raw).1
      = (processCandidate dismissed par used ⟨[], []⟩ raw).1 := by
  rw [processCandidate_state dismissed par used st raw]

theorem processCandidate_all (dismissed : List Str) (par : Paragraph)
    (used : List (Nat × Nat)) (st : AnalyzeState) (raw : RawSuggestion) :
    (processCandidate dismissed par used st raw).2.all_suggestions
      = st.all_suggestions
        ++ (processCandidate dismissed par used ⟨[], []⟩ raw).2.all_suggestions := by
  rw [processCandidate_state dismissed par used st raw]

theorem processCandidate_err (dismissed : List Str) (par : Paragraph)
    (used : List (Nat × Nat)) (st : AnalyzeState) (raw : RawSuggestion) :
    (processCandidate dismissed par used st raw).2.errors
      = st.errors
        ++ (processCandidate dismissed par used ⟨[], []⟩ raw).2.errors := by
  rw [processCandidate_state dismissed par used st raw]

theorem innerFoldl_state (dismissed : List Str) (par : Paragraph) :
    ∀ (raws : List RawSuggestion) (acc : List (Nat × Nat) × AnalyzeState),
      raws.foldl (fun a raw => processCandidate dismissed par a.1 a.2 raw) acc
        = ((raws.foldl (fun a raw => processCandidate dismissed par a.1 a.2 raw)
              (acc.1, ⟨[], []⟩)).1,
           ⟨acc.2.all_suggestions
              ++ (raws.foldl (fun a raw => processCandidate dismissed par a.1 a.2 raw)
                    (acc.1, ⟨[], []⟩)).2.all_suggestions,
            acc.2.errors
              ++ (raws.foldl (fun a raw => processCandidate dismissed par a.1 a.2 raw)
                    (acc.1, ⟨[], []⟩)).2.errors⟩) := by
  intro raws
  induction raws with
  | nil => intro acc; simp
  | cons r rs ih =>
    intro acc
    simp only [List.foldl_cons]
    rw [ih, ih (processCandidate dismissed par acc.1 ⟨[], []⟩ r)]
    rw [processCandidate_fst dismissed par acc.1 acc.2 r,
        processCandidate_all dismissed par acc.1 acc.2 r,
        processCandidate_err dismissed par acc.1 acc.2 r]
    simp [List.append_assoc]

theorem processParagraphSuggestions_state (dismissed : List Str)
    (par : Paragraph) (raws : List RawSuggestion) (st : AnalyzeState) :
    processParagraphSuggestions dismissed par raws st
      = ⟨st.all_suggestions
           ++ (processParagraphSuggestions dismissed par raws ⟨[], []⟩).all_suggestions,
         st.errors
           ++ (processParagraphSuggestions dismissed par raws ⟨[], []⟩).errors⟩ := by
  unfold processParagraphSuggestions
  rw [innerFoldl_state dismissed par raws ([], st)]

theorem processPair_state (dismissed : List Str) (acc : AnalyzeState × Nat)
    (pg : Paragraph × GatherItem) :
    processPair dismissed acc pg
      = (⟨acc.1.all_suggestions ++ (pairContribution dismissed pg).1,
          acc.1.errors ++ (pairContribution dismissed pg).2⟩,
         acc.2 + 1) := by
  obtain ⟨par, item⟩ := pg
  cases item with
  | exc msg => simp [processPair, pairContribution]
  | result raws =>
    simp only [processPair, pairContribution]
    rw [processParagraphSuggestions_state dismissed par raws acc.1]

theorem outerFoldl_state (dismissed : List Str) :
    ∀ (pairs : List (Paragraph × GatherItem)) (acc : AnalyzeState × Nat),
      pairs.foldl (processPair dismissed) acc
        = (⟨acc.1.all_suggestions
              ++ pairs.flatMap (fun pg => (pairContribution dismissed pg).1),
            acc.1.errors
              ++ pairs.flatMap (fun pg => (pairContribution dismissed pg).2)⟩,
           acc.2 + pairs.length) := by
  intro pairs
  induction pairs with
  | nil => intro acc; simp
  | cons pg rest ih =>
    intro acc
    simp only [List.foldl_cons]
    rw [processPair_state dismissed acc pg, ih]
    simp [List.append_assoc, List.flatMap_cons]
    omega

theorem analyze_core_decomposition (dismissed : List Str)
    (paragraphs : List Paragraph) (oracle : List CallOutcome) :
    (analyze_paragraphs_core dismissed paragraphs oracle).suggestions
      = ((paragraphs.filter (fun p => strippedNonEmpty p.text_content)).zip
          (oracle.map (fun o => GatherItem.result (analyze_paragraph_with_llm o)))).flatMap
          (fun pg => (pairContribution dismissed pg).1)
    ∧ (analyze_paragraphs_core dismissed paragraphs oracle).errors
      = ((paragraphs.filter (fun p => strippedNonEmpty p.text_content)).zip
          (oracle.map (fun o => GatherItem.result (analyze_paragraph_with_llm o)))).flatMap
          (fun pg => (pairContribution dismissed pg).2) := by
  unfold analyze_paragraphs_core
  dsimp only
  rw [outerFoldl_state dismissed _ (⟨[], []⟩, 0)]
  simp

theorem processCandidate_inv (dismissed : List Str) (par : Paragraph)
    (used : List (Nat × Nat)) (st : AnalyzeState) (raw : RawSuggestion)
    (hst : ∀ s ∈ st.all_suggestions, SpanInv s) :
    ∀ s ∈ (processCandidate dismissed par used st raw).2.all_suggestions,
      SpanInv s := by
  unfold processCandidate
  dsimp only
  split
  · simpa using hst
  · split
    · rename_i rule cat orig sugg msg h1 h2 h3 h4 h5
      split
      · simpa using hst
      · split
        · simpa using hst
        · rename_i relative_start relative_end hsel
          split
          · simpa using hst
          · intro s hs
            simp only at hs
            rcases List.mem_append.mp hs with hmem | hmem
            · exact hst s hmem
            · rw [List.mem_singleton] at hmem
              subst hmem
              have hpos := select_best_position_mem hsel
              have hchar := mem_find_text_positions.mp hpos
              have hre : relative_end = relative_start + orig.length := hchar.2
              unfold SpanInv
              dsimp only
              refine ⟨by omega, by omega, fun hne => ?_⟩
              have hlen : 0 < orig.length := List.length_pos.mpr hne
              omega
    · simpa using hst

theorem innerFoldl_inv (dismissed : List Str) (par : Paragraph) :
    ∀ (raws : List RawSuggestion) (acc : List (Nat × Nat) × AnalyzeState),
      (∀ s ∈ acc.2.all_suggestions, SpanInv s) →
      ∀ s ∈ (raws.foldl (fun a raw => processCandidate dismissed par a.1 a.2 raw)
              acc).2.all_suggestions, SpanInv s := by
  intro raws
  induction raws with
  | nil => intro acc hacc; simpa using hacc
  | cons r rs ih =>
    intro acc hacc
    simp only [List.foldl_cons]
    exact ih (processCandidate dismissed par acc.1 acc.2 r)
      (processCandidate_inv dismissed par acc.1 acc.2 r hacc)

theorem processPair_inv (dismissed : List Str) (acc : AnalyzeState × Nat)
    (pg : Paragraph × GatherItem)
    (hacc : ∀ s ∈ acc.1.all_suggestions, SpanInv s) :
    ∀ s ∈ (processPair dismissed acc pg).1.all_suggestions, SpanInv s := by
  unfold processPair
  obtain ⟨par, item⟩ := pg
  cases item with
  | exc msg => simpa using hacc
  | result raws =>
    simp only
    unfold processParagraphSuggestions
    exact innerFoldl_inv dismissed par raws ([], acc.1) hacc

theorem outerFoldl_inv (dismissed : List Str) :
    ∀ (pairs : List (Paragraph × GatherItem)) (acc : AnalyzeState × Nat),
      (∀ s ∈ acc.1.all_suggestions, SpanInv s) →
      ∀ s ∈ (pairs.foldl (processPair dismissed) acc).1.all_suggestions,
        SpanInv s := by
  intro pairs
  induction pairs with
  | nil => intro acc hacc; simpa using hacc
  | cons pg rest ih =>
    intro acc hacc
    simp only [List.foldl_cons]
    exact ih (processPair dismissed acc pg)
      (processPair_inv dismissed acc pg hacc)

theorem analyze_core_inv (dismissed : List Str) (paragraphs : List Paragraph)
    (oracle : List CallOutcome) :
    ∀ s ∈ (analyze_paragraphs_core dismissed paragraphs oracle).suggestions,
      SpanInv s := by
  unfold analyze_paragraphs_core
  exact outerFoldl_inv dismissed _ (⟨[], []⟩, 0) (by simp)

/-! ## Rate-limit helper lemmas -/
theorem check_rate_limit_allowed_stored (requests_per_hour : Nat)
    (p : Profile) (now : Nat) (q stored : Profile)
    (h : check_rate_limit requests_per_hour p now
        = (RateLimitOutcome.allowed q, stored)) :
    stored = q
    ∧ (stored = ⟨1, some (now + usPerHour)⟩
        ∨ stored.api_call_count = p.api_call_count + 1) := by
  unfold check_rate_limit at h
  split at h
  · simp only [Prod.mk.injEq, RateLimitOutcome.allowed.injEq] at h
    obtain ⟨h1, h2⟩ := h
    subst h1; subst h2
    exact ⟨rfl, Or.inl rfl⟩
  · split at h
    · simp only [Prod.mk.injEq, RateLimitOutcome.allowed.injEq] at h
      obtain ⟨h1, h2⟩ := h
      subst h1; subst h2
      exact ⟨rfl, Or.inl rfl⟩
    · split at h
      · simp at h
      · simp only [Prod.mk.injEq, RateLimitOutcome.allowed.injEq] at h
        obtain ⟨h1, h2⟩ := h
        subst h1; subst h2
        exact ⟨rfl, Or.inr rfl⟩

/-! ## Claim theorems -/

/-- C1 (counterexample): in a two-paragraph request whose first paragraph's
provider call raises an exception, the response's `errors` list is empty —
not "exactly one entry" — because `analyze_paragraph_with_llm` catches the
exception and returns `[]`; the sibling paragraph's suggestion is still
present. -/
theorem analyze_raises_no_error_entry :
    (analyze_paragraphs_core []
        [⟨"p1".data, "Hi".data, 0⟩, ⟨"p2".data, "Hi".data, 10⟩]
        [CallOutcome.raises "boom".data,
         CallOutcome.ok [⟨some "r".data, some "s".data, some "Hi".data,
           some "Ho".data, some "m".data⟩]]).errors = []
    ∧ (analyze_paragraphs_core []
        [⟨"p1".data, "Hi".data, 0⟩, ⟨"p2".data, "Hi".data, 10⟩]
        [CallOutcome.raises "boom".data,
         CallOutcome.ok [⟨some "r".data, some "s".data, some "Hi".data,
           some "Ho".data, some "m".data⟩]]).suggestions
      = [⟨"r".data, "s".data, "Hi".data, "Ho".data, "m".data, 10, 12,
          "Hi|r".data⟩] := by decide

/-- C1 (amended): a paragraph whose analysis call raises (or times out)
contributes zero suggestions and zero entries to `errors` — the exception is
swallowed inside `analyze_paragraph_with_llm`, which returns the empty list —
and the response is the concatenation of independent per-paragraph
contributions, so sibling paragraphs' suggestions are unaffected and still
present. -/
theorem llm_failure_isolation (dismissed : List Str)
    (paragraphs : List Paragraph) (oracle : List CallOutcome)
    (par : Paragraph) (msg : Str) :
    analyze_paragraph_with_llm (CallOutcome.raises msg) = []
    ∧ pairContribution dismissed
        (par, GatherItem.result (analyze_paragraph_with_llm (CallOutcome.raises msg)))
      = ([], [])
    ∧ (analyze_paragraphs_core dismissed paragraphs oracle).suggestions
      = ((paragraphs.filter (fun p => strippedNonEmpty p.text_content)).zip
          (oracle.map (fun o => GatherItem.result (analyze_paragraph_with_llm o)))).flatMap
          (fun pg => (pairContribution dismissed pg).1)
    ∧ (analyze_paragraphs_core dismissed paragraphs oracle).errors
      = ((paragraphs.filter (fun p => strippedNonEmpty p.text_content)).zip
          (oracle.map (fun o => GatherItem.result (analyze_paragraph_with_llm o)))).flatMap
          (fun pg => (pairContribution dismissed pg).2) :=
  ⟨rfl, rfl, (analyze_core_decomposition dismissed paragraphs oracle).1,
   (analyze_core_decomposition dismissed paragraphs oracle).2⟩

/-- C2: `check_rate_limit` follows the two-state machine: when
`rate_limit_reset_at` is null or not after `now`, it resets the counter to 1
and the window to one hour from now and admits, regardless of the prior
count; otherwise it rejects with `current_usage` equal to the stored count
and the given limit, leaving the stored row unchanged, when the count has
reached the limit, and increments the count by exactly one and admits when
it has not. -/
theorem check_rate_limit_state_machine (requests_per_hour : Nat)
    (p : Profile) (now : Nat) :
    (windowExpired p now = true →
      check_rate_limit requests_per_hour p now
        = (RateLimitOutcome.allowed ⟨1, some (now + usPerHour)⟩,
           ⟨1, some (now + usPerHour)⟩))
    ∧ (windowExpired p now = false → requests_per_hour ≤ p.api_call_count →
      ∃ secs, check_rate_limit requests_per_hour p now
          = (RateLimitOutcome.rejected p.api_call_count requests_per_hour secs,
             p))
    ∧ (windowExpired p now = false → p.api_call_count < requests_per_hour →
      check_rate_limit requests_per_hour p now
        = (RateLimitOutcome.allowed
             { p with api_call_count := p.api_call_count + 1 },
           { p with api_call_count := p.api_call_count + 1 })) := by
  obtain ⟨count, reset⟩ := p
  cases reset with
  | none =>
    refine ⟨fun _ => rfl, fun hf _ => ?_, fun hf _ => ?_⟩ <;>
      simp [windowExpired] at hf
  | some r =>
    by_cases hnr : now ≥ r
    · refine ⟨fun _ => ?_, fun hf _ => ?_, fun hf _ => ?_⟩
      · simp [check_rate_limit, hnr]
      · simp [windowExpired, hnr] at hf
      · simp [windowExpired, hnr] at hf
    · refine ⟨fun ht => ?_, fun _ hcount => ?_, fun _ hcount => ?_⟩
      · simp [windowExpired, hnr] at ht
      · exact ⟨(r - now) / usPerSecond, by simp [check_rate_limit, hnr, hcount]⟩
      · simp [check_rate_limit, hnr, Nat.not_le.mpr hcount]

/-- C2 (witness): the state machine at concrete inputs — an unset window
resets to count 1; a full window in the future rejects with the stored
count; an open window increments 4 to 5. -/
theorem check_rate_limit_state_machine_witness :
    check_rate_limit 5 ⟨3, none⟩ 7
      = (RateLimitOutcome.allowed ⟨1, some (7 + usPerHour)⟩,
         ⟨1, some (7 + usPerHour)⟩)
    ∧ (∃ secs, check_rate_limit 5 ⟨5, some 100⟩ 50
        = (RateLimitOutcome.rejected 5 5 secs, ⟨5, some 100⟩))
    ∧ check_rate_limit 5 ⟨4, some 100⟩ 50
      = (RateLimitOutcome.allowed ⟨5, some 100⟩, ⟨5, some 100⟩) :=
  ⟨(check_rate_limit_state_machine 5 ⟨3, none⟩ 7).1 (by decide),
   (check_rate_limit_state_machine 5 ⟨5, some 100⟩ 50).2.1 (by decide) (by decide),
   (check_rate_limit_state_machine 5 ⟨4, some 100⟩ 50).2.2 (by decide) (by decide)⟩

/-- C3 (counterexample): with an empty needle, `find_text_positions` does
not return the empty sequence — Python `str.find` reports a zero-width match
at every offset of the haystack, one past the end included. -/
theorem find_positions_empty_needle_counterexample :
    find_text_positions "a".data "".data = [(0, 0), (1, 1)]
    ∧ find_text_positions "a".data "".data ≠ [] := by decide

/-- C3 (amended): `find_text_positions` returns the empty sequence whenever
the needle is non-empty and does not occur in the haystack (absence is not
an error — the function just returns a list); an empty needle instead yields
a zero-width span at every offset `0 .. length(haystack)`. -/
theorem find_positions_absent_yields_empty (h n : Str) :
    (n ≠ [] → (∀ i, i < h.length → matchesAt h n i = false) →
      find_text_positions h n = [])
    ∧ find_text_positions h []
      = (List.range (h.length + 1)).map (fun i => (i, i)) := by
  constructor
  · intro hne habs
    rw [find_text_positions_eq]
    have hfil : (List.range (h.length + 1)).filter
        (fun i => matchesAt h n i) = [] := by
      rw [List.filter_eq_nil_iff]
      intro a _ hmat
      have hle := matchesAt_length_le hmat
      have hlen : 0 < n.length := List.length_pos.mpr hne
      have hfalse := habs a (by omega)
      rw [hfalse] at hmat
      simp at hmat
    rw [hfil]; rfl
  · rw [find_text_positions_eq]
    have hfil : (List.range (h.length + 1)).filter
        (fun i => matchesAt h [] i) = List.range (h.length + 1) := by
      rw [List.filter_eq_self]
      intro a ha
      rw [List.mem_range] at ha
      simp [matchesAt]
      omega
    rw [hfil]
    simp

/-- C3 (witness): a non-empty needle absent from the haystack yields the
empty sequence. -/
theorem find_positions_absent_yields_empty_witness :
    find_text_positions "ab".data "z".data = [] :=
  (find_positions_absent_yields_empty "ab".data "z".data).1
    (by decide) (by decide)

/-- C5: for a non-empty needle, `find_text_positions` returns exactly the
positions at which the needle occurs — overlapping occurrences included,
since the search resumes at `start + 1` — as `(start, start + length)`
pairs in ascending order of `start`; in particular on haystack `aaa` and
needle `aa` it returns `[(0,2), (1,3)]`. -/
theorem find_positions_all_overlapping (h n : Str) (_hne : n ≠ []) :
    (∀ s e : Nat, (s, e) ∈ find_text_positions h n
        ↔ (matchesAt h n s = true ∧ e = s + n.length))
    ∧ (find_text_positions h n).Pairwise (fun p q => p.1 < q.1)
    ∧ find_text_positions "aaa".data "aa".data = [(0, 2), (1, 3)] :=
  ⟨fun _ _ => mem_find_text_positions, find_text_positions_sorted h n,
   by decide⟩

/-- C5 (witness): the overlapping-occurrence example evaluated. -/
theorem find_positions_all_overlapping_witness :
    find_text_positions "aaa".data "aa".data = [(0, 2), (1, 3)] :=
  (find_positions_all_overlapping "aaa".data "aa".data (by decide)).2.2

/-- C4 (counterexample): if the provider returns a candidate whose
`original_text` is the empty string, the pipeline matches it at a zero-width
span and emits a suggestion with `global_start = global_end`, violating
`global_start < global_end`. -/
theorem span_invariant_empty_text_counterexample :
    (analyze_paragraphs_core [] [⟨"p".data, "ab".data, 5⟩]
        [CallOutcome.ok [⟨some "r".data, some "s".data, some "".data,
          some "x".data, some "m".data⟩]]).suggestions
      = [⟨"r".data, "s".data, "".data, "x".data, "m".data, 5, 5, "|r".data⟩]
    ∧ ¬ ((5 : Nat) < 5) := by decide

/-- C4 (amended): every suggestion emitted by analyze satisfies
`global_end - global_start = length(original_text)` and
`global_start ≤ global_end`, with strict inequality whenever
`original_text` is non-empty (the offsets are `base_offset` plus the
selected relative span, whose width is the length of `original_text`). -/
theorem analyze_span_invariant (dismissed : List Str)
    (paragraphs : List Paragraph) (oracle : List CallOutcome) :
    ∀ s ∈ (analyze_paragraphs_core dismissed paragraphs oracle).suggestions,
      s.global_end - s.global_start = s.original_text.length
      ∧ s.global_start ≤ s.global_end
      ∧ (s.original_text ≠ [] → s.global_start < s.global_end) :=
  fun s hs => analyze_core_inv dismissed paragraphs oracle s hs

/-- C4 (witness): a paragraph at `base_offset = 100` with candidate text
`Its` yields a suggestion spanning `[100, 103)` of width 3, on which the
invariant is discharged. -/
theorem analyze_span_invariant_witness :
    ((⟨"g".data, "grammar".data, "Its".data, "X".data, "m".data, 100, 103,
        "Its|g".data⟩ : Suggestion).global_end
      - (⟨"g".data, "grammar".data, "Its".data, "X".data, "m".data, 100, 103,
          "Its|g".data⟩ : Suggestion).global_start
      = ("Its".data : Str).length)
    ∧ (100 : Nat) ≤ 103 ∧ (("Its".data : Str) ≠ [] → (100 : Nat) < 103) :=
  analyze_span_invariant []
    [⟨"p1".data, "Its going to rain.".data, 100⟩]
    [CallOutcome.ok [⟨some "g".data, some "grammar".data, some "Its".data,
      some "X".data, some "m".data⟩]]
    ⟨"g".data, "grammar".data, "Its".data, "X".data, "m".data, 100, 103,
      "Its|g".data⟩
    (by decide)

/-- C6: `select_best_position` returns the first position in document order
whose interval does not overlap any interval in `used_spans` (two intervals
overlap unless one entirely precedes the other), and returns none exactly
when every candidate conflicts; a returned span never overlaps a used
span. -/
theorem select_best_position_first_fit (positions used : List (Nat × Nat)) :
    (select_best_position positions used = none →
      ∀ p ∈ positions, Conflicts p used)
    ∧ (∀ p, select_best_position positions used = some p →
        ∃ l r, positions = l ++ p :: r ∧ ¬ Conflicts p used
          ∧ ∀ q ∈ l, Conflicts q used) :=
  ⟨fun h => select_best_position_none h,
   fun _ h => select_best_position_some h⟩

/-- C6 (witness): with `used_spans = [(0,5)]` and positions
`[(2,7), (5,10)]` the selection is `(5,10)`: the first candidate conflicts
and the returned one does not. -/
theorem select_best_position_first_fit_witness :
    ∃ l r, ([(2, 7), (5, 10)] : List (Nat × Nat)) = l ++ (5, 10) :: r
      ∧ ¬ Conflicts (5, 10) [(0, 5)]
      ∧ ∀ q ∈ l, Conflicts q [(0, 5)] :=
  (select_best_position_first_fit [(2, 7), (5, 10)] [(0, 5)]).2
    (5, 10) (by decide)

/-- C7 (counterexample): with 1.5 seconds left in the window the code
reports `reset_in_seconds = 1` — `int(...)` truncates the positive
difference — whereas the ceiling of the difference is 2. -/
theorem retry_after_ceiling_counterexample :
    check_rate_limit 5 ⟨5, some 1500000⟩ 0
      = (RateLimitOutcome.rejected 5 5 1, ⟨5, some 1500000⟩)
    ∧ (1500000 - 0 + (usPerSecond - 1)) / usPerSecond = 2 := by decide

/-- C7 (amended): when `check_rate_limit` rejects a call in an open window,
the reported `reset_in_seconds` is the floor (integer truncation), not the
ceiling, of the difference between `rate_limit_reset_at` and `now` in
seconds. -/
theorem check_rate_limit_retry_after_floor (requests_per_hour : Nat)
    (p : Profile) (now r : Nat) (hr : p.rate_limit_reset_at = some r)
    (hwin : now < r) (hcount : requests_per_hour ≤ p.api_call_count) :
    ∃ retry,
      check_rate_limit requests_per_hour p now
        = (RateLimitOutcome.rejected p.api_call_count requests_per_hour retry,
           p)
      ∧ retry * usPerSecond ≤ r - now
      ∧ r - now < (retry + 1) * usPerSecond := by
  obtain ⟨count, reset⟩ := p
  simp only at hr hcount
  subst hr
  have hnr : ¬ now ≥ r := by omega
  refine ⟨(r - now) / usPerSecond, ?_, ?_, ?_⟩
  · simp [check_rate_limit, hnr, hcount]
  · simp only [usPerSecond]; omega
  · simp only [usPerSecond]; omega

/-- C7 (witness): 1.5 seconds of window left reject with `retry = 1`, the
floor of 1.5. -/
theorem check_rate_limit_retry_after_floor_witness :
    ∃ retry,
      check_rate_limit 5 ⟨5, some 1500000⟩ 0
        = (RateLimitOutcome.rejected 5 5 retry, ⟨5, some 1500000⟩)
      ∧ retry * usPerSecond ≤ 1500000 - 0
      ∧ 1500000 - 0 < (retry + 1) * usPerSecond :=
  check_rate_limit_retry_after_floor 5 ⟨5, some 1500000⟩ 0 1500000
    rfl (by decide) (by decide)

/-- C8: `dismiss_suggestion` is idempotent — two calls with the same
profile, document, text and rule both succeed and return the same
identifier `original_text ++ "|" ++ rule_id`; the second insert hits the
persistence layer's uniqueness-conflict signal and is treated as success,
leaving the stored rows unchanged. -/
theorem dismiss_suggestion_idempotent (db : DismissalDB)
    (profile_id document_id original_text rule_id : Str) :
    ∃ db1,
      dismiss_suggestion db profile_id document_id original_text rule_id true
        = Except.ok
            (⟨true, create_dismissal_identifier original_text rule_id⟩, db1)
      ∧ dismiss_suggestion db1 profile_id document_id original_text rule_id
            true
        = Except.ok
            (⟨true, create_dismissal_identifier original_text rule_id⟩, db1)
      ∧ insertDismissal db1
          ⟨profile_id, document_id,
           create_dismissal_identifier original_text rule_id⟩
        = InsertResult.uniqueViolation := by
  by_cases hmem : (⟨profile_id, document_id,
      create_dismissal_identifier original_text rule_id⟩ : DismissalRecord)
      ∈ db
  · exact ⟨db, by simp [dismiss_suggestion, insertDismissal, hmem],
      by simp [dismiss_suggestion, insertDismissal, hmem],
      by simp [insertDismissal, hmem]⟩
  · refine ⟨db ++ [⟨profile_id, document_id,
      create_dismissal_identifier original_text rule_id⟩], ?_, ?_, ?_⟩
    · simp [dismiss_suggestion, insertDismissal, hmem]
    · simp [dismiss_suggestion, insertDismissal]
    · simp [insertDismissal]

/-- C9: the rate-limit counter is consumed before request-level validation —
whenever the analyze endpoint fails with a 400 (too many paragraphs or a
paragraph too long) or a 404 (document not found or not owned), the
persisted profile is exactly what `check_rate_limit` stored: the counter was
already reset to 1 with a fresh window, or incremented by one. -/
theorem rate_limit_consumed_before_validation (requests_per_hour : Nat)
    (profile : Profile) (now : Nat) (paragraphs : List Paragraph)
    (docOwned : Bool) (dismissed : List Str) (oracle : List CallOutcome)
    (hfail :
      (∃ d, (analyze_endpoint requests_per_hour profile now paragraphs
          docOwned dismissed oracle).1 = Except.error (HTTPError.badRequest d))
      ∨ (∃ d, (analyze_endpoint requests_per_hour profile now paragraphs
          docOwned dismissed oracle).1
            = Except.error (HTTPError.notFound d))) :
    (analyze_endpoint requests_per_hour profile now paragraphs docOwned
        dismissed oracle).2
      = (check_rate_limit requests_per_hour profile now).2
    ∧ ((analyze_endpoint requests_per_hour profile now paragraphs docOwned
          dismissed oracle).2 = ⟨1, some (now + usPerHour)⟩
        ∨ (analyze_endpoint requests_per_hour profile now paragraphs docOwned
            dismissed oracle).2.api_call_count
          = profile.api_call_count + 1) := by
  rcases hcr : check_rate_limit requests_per_hour profile now
    with ⟨out, stored⟩
  cases out with
  | rejected u l secs =>
    exfalso
    have h1 : (analyze_endpoint requests_per_hour profile now paragraphs
        docOwned dismissed oracle).1
        = Except.error (HTTPError.tooManyRequests u l secs) := by
      unfold analyze_endpoint
      rw [hcr]
    rcases hfail with ⟨d, hd⟩ | ⟨d, hd⟩ <;> rw [h1] at hd <;> simp at hd
  | allowed q =>
    have hstored := check_rate_limit_allowed_stored requests_per_hour
      profile now q stored hcr
    have h2 : (analyze_endpoint requests_per_hour profile now paragraphs
        docOwned dismissed oracle).2 = stored := by
      unfold analyze_endpoint
      rw [hcr]
      split
      · rename_i u l secs stored2 heq
        injection heq with hA hB
        simp at hA
      · rename_i q2 stored2 heq
        injection heq with hA hB
        subst hB
        split
        · rfl
        · split
          · rfl
          · split <;> rfl
    rw [h2]
    exact ⟨rfl, hstored.2⟩

/-- C9 (witness): a request with 11 paragraphs is rejected with a 400, yet
the stored profile shows the counter consumed (reset to 1 with a fresh
window, the profile having started with an unset window). -/
theorem rate_limit_consumed_before_validation_witness :
    (analyze_endpoint 5 ⟨3, none⟩ 0
        (List.replicate 11 ⟨"p".data, "x".data, 0⟩) true [] []).2
      = (check_rate_limit 5 ⟨3, none⟩ 0).2
    ∧ ((analyze_endpoint 5 ⟨3, none⟩ 0
          (List.replicate 11 ⟨"p".data, "x".data, 0⟩) true [] []).2
        = ⟨1, some (0 + usPerHour)⟩
      ∨ (analyze_endpoint 5 ⟨3, none⟩ 0
          (List.replicate 11 ⟨"p".data, "x".data, 0⟩) true [] []).2.api_call_count
        = (⟨3, none⟩ : Profile).api_call_count + 1) :=
  rate_limit_consumed_before_validation 5 ⟨3, none⟩ 0
    (List.replicate 11 ⟨"p".data, "x".data, 0⟩) true [] []
    (Or.inl ⟨"Too many paragraphs.".data, rfl⟩)

/-- C10: the dismissal identifier is not injective — whenever the original
text contains the separator bar, distinct `(original_text, rule_id)` pairs
share an identifier (e.g. splitting around any bar), and dismissing one such
pair also suppresses suggestions produced by the other, shown concretely:
dismissing `("a|b", "c")` suppresses the suggestion `("a", "b|c")` would
otherwise emit. -/
theorem dismissal_identifier_collision :
    (∀ s t u : Str,
      create_dismissal_identifier (s ++ ['|'] ++ t) u
        = create_dismissal_identifier s (t ++ ['|'] ++ u)
      ∧ (s ++ ['|'] ++ t, u) ≠ (s, t ++ ['|'] ++ u))
    ∧ create_dismissal_identifier "a|b".data "c".data
      = create_dismissal_identifier "a".data "b|c".data
    ∧ ("a|b".data ≠ ("a".data : Str))
    ∧ (analyze_paragraphs_core
        [create_dismissal_identifier "a|b".data "c".data]
        [⟨"p".data, "a".data, 0⟩]
        [CallOutcome.ok [⟨some "b|c".data, some "s".data, some "a".data,
          some "x".data, some "m".data⟩]]).suggestions = []
    ∧ (analyze_paragraphs_core []
        [⟨"p".data, "a".data, 0⟩]
        [CallOutcome.ok [⟨some "b|c".data, some "s".data, some "a".data,
          some "x".data, some "m".data⟩]]).suggestions ≠ [] := by
  refine ⟨?_, by decide, by decide, by decide, by decide⟩
  intro s t u
  constructor
  · simp [create_dismissal_identifier, List.append_assoc]
  · intro hc
    have h1 : s ++ ['|'] ++ t = s := congrArg Prod.fst hc
    have h2 := congrArg List.length h1
    simp only [List.length_append, List.length_singleton] at h2
    omega

end WordWise
